import Mathlib

/-!
Verification development for the haruhi request-dispatch core
(src/proc.rs, src/route.rs, src/lib.rs).

The Rust code is shallowly embedded: zero-copy `StrRef` slices are
modelled by the `String` contents they point at, the interior-mutable
`Cell` fields of `UrlInfo` become plain record fields updated by pure
state-passing functions, and a Rust `panic!` is modelled by `none` /
a `none` result of the corresponding `Option`-returning operation.
-/

namespace Haruhi

/-- Splits a list of characters at every occurrence of `sep`, keeping
empty pieces, exactly like Rust `str::split` with a `char` separator:
`"" ↦ [""]`, `"=v" ↦ ["", "v"]`, `"a=" ↦ ["a", ""]`, `"a=b=c" ↦ ["a","b","c"]`. -/
def splitChar (sep : Char) : List Char → List (List Char)
  | [] => [[]]
  | c :: cs =>
    if c == sep then
      [] :: splitChar sep cs
    else
      match splitChar sep cs with
      | [] => [[c]]
      | p :: ps => (c :: p) :: ps

/-- Rust `str::split(sep)` on a string, as a list of strings. -/
def splitStr (sep : Char) (s : String) : List String :=
  (splitChar sep s.toList).map String.mk

/-- One query parameter (`Param` in src/proc.rs); the `StrRef` fields are
modelled by the string contents they reference. -/
structure Param where
  name : Option String
  value : Option String
deriving DecidableEq, Repr

/-- The per-token parameter parsing performed inside `UrlInfo::lazy_parse`
(the body of the `for part in params_parts` loop in src/proc.rs):
`starts_with_eq` checks the leading character; the token is then split on
every `=` and the `Param` is built from the first one or two pieces of
that split, exactly as the successive `split.next()` calls do. -/
def parseParam (part : String) : Param :=
  let l := part.toList
  let split := (splitChar '=' l).map String.mk
  let starts_with_eq : Bool := l.head? == some '='
  if starts_with_eq then
    { name := none, value := split.head? }
  else
    { name := split.head?, value := split[1]? }

/-- `UrlInfo` from src/proc.rs. The `Cell`-held lazily computed fields are
plain fields here; `parse_mutex : Mutex<()>` carries no data and is
modelled separately for the interleaving analysis. -/
structure UrlInfo where
  original_url : String
  params : List Param
  path : Option String
  parts : List String
deriving DecidableEq, Repr

namespace UrlInfo

/-- Modelled from the spec: the repository under src/ has no constructor
for `UrlInfo`/`RequestContext`; §3 of the spec describes the initial state
as a "not yet computed" sentinel with all derived fields empty/uncomputed
(`path` is the `is_some` sentinel consulted by `is_lazy_parsed`). -/
def fresh (url : String) : UrlInfo :=
  { original_url := url, params := [], path := none, parts := [] }

/-- `UrlInfo::is_lazy_parsed`: `self.path.get().is_some()`. -/
def is_lazy_parsed (u : UrlInfo) : Bool :=
  u.path.isSome

/-- `UrlInfo::lazy_parse` as a pure state transformer: split the original
URL on `/`, take the last piece, split it on `?` (first piece is the path,
the rest are parameter tokens), and parse each token with `parseParam`.
The `parts.last().unwrap()` and `params_parts.next().unwrap()` calls
cannot fail because a split always yields at least one piece; they are
modelled with default-carrying accessors. -/
def lazy_parse (u : UrlInfo) : UrlInfo :=
  if u.original_url.isEmpty then
    u
  else
    let parts := splitStr '/' u.original_url
    let last := parts.getLastD ""
    let params_parts := splitStr '?' last
    let path := params_parts.headD ""
    let params := params_parts.tail.map parseParam
    { u with params := params, path := some path, parts := parts }

/-- `UrlInfo::parse_if_needed`: parse only when not already parsed. -/
def parse_if_needed (u : UrlInfo) : UrlInfo :=
  if u.is_lazy_parsed then u else u.lazy_parse

end UrlInfo

/-- `RequestContext` from src/proc.rs. -/
structure RequestContext where
  url_info : UrlInfo
deriving DecidableEq, Repr

namespace RequestContext

/-- `RequestContext::original_url`. -/
def original_url (c : RequestContext) : String :=
  c.url_info.original_url

/-- `RequestContext::params`: parse if needed, then read the params cell. -/
def params (c : RequestContext) : List Param :=
  c.url_info.parse_if_needed.params

/-- `RequestContext::parts`: parse if needed, then read the parts cell. -/
def parts (c : RequestContext) : List String :=
  c.url_info.parse_if_needed.parts

/-- `RequestContext::path`: parse if needed, then `self.url_info.path.get().unwrap()`.
The result is kept as an `Option`: `none` models the `unwrap` panic on a
still-unset `path`. -/
def path (c : RequestContext) : Option String :=
  c.url_info.parse_if_needed.path

end RequestContext

/-- `ContextBundle<RS>` from src/proc.rs: a domain result paired with the
request context. The request type is kept generic (`Req`); the theorems
about the pipeline hold for any request payload. -/
structure ContextBundle (RS Req : Type) where
  result : RS
  request : Req
deriving DecidableEq, Repr

/-- The `Process` capability of src/proc.rs, a unit of work producing an
`Update` from a read-only view of a bundle. `exec` is asynchronous in the
source; its observable behaviour is the value it returns, modelled as a
plain function. -/
abbrev Process (RS U Req : Type) := ContextBundle RS Req → U

/-- `ResultContextBundle<O, E>` from src/proc.rs: the tagged Ok/Err union
of two `ContextBundle` shapes. -/
inductive ResultContextBundle (O E Req : Type) where
  | Ok (result : O) (request : Req)
  | Err (result : E) (request : Req)
deriving DecidableEq, Repr

/-- `Process::exec_over` from src/proc.rs: run `exec`, `apply` the produced
update to the Ok result, and rewrap with the same request. `applyO` stands
for the `ResultContext::apply` method of the Ok result type (`Except E O`
models Rust `Result<O, E>`). -/
def Process.exec_over {O E U Req : Type} (process : Process O U Req)
    (applyO : O → U → Except E O) (context : ContextBundle O Req) :
    ResultContextBundle O E Req :=
  let result := process context
  match applyO context.result result with
  | .ok v => .Ok v context.request
  | .error e => .Err e context.request

namespace ResultContextBundle

variable {O E U Req : Type}

/-- `ResultContextBundle::unwrap`: `none` models the
`fail_err_unwrap` panic on the `Err` variant. -/
def unwrap : ResultContextBundle O E Req → Option (ContextBundle O Req)
  | Ok result request => some { result := result, request := request }
  | Err _ _ => none

/-- `ResultContextBundle::unwrap_err`: `none` models the
`fail_unwrap_err_on_good` panic on the `Ok` variant. -/
def unwrap_err : ResultContextBundle O E Req → Option (ContextBundle E Req)
  | Err result request => some { result := result, request := request }
  | Ok _ _ => none

/-- `ResultContextBundle::err`: borrow the error value; `none` models the
panic on the `Ok` variant. -/
def err : ResultContextBundle O E Req → Option E
  | Err result _ => some result
  | Ok _ _ => none

/-- `ResultContextBundle::is_ok`. -/
def is_ok : ResultContextBundle O E Req → Bool
  | Ok _ _ => true
  | Err _ _ => false

/-- `ResultContextBundle::is_err`: `!self.is_ok()`. -/
def is_err (b : ResultContextBundle O E Req) : Bool :=
  !b.is_ok

/-- `ResultContextBundle::amend`: apply an update to an `Err` bundle,
landing in `Ok` or `Err`; the outer `none` models the `fail_fix_good`
panic when called on an `Ok` bundle. `applyE` stands for the
`ResultContext::apply` method of the Err result type. -/
def amend (applyE : E → U → Except E O) :
    ResultContextBundle O E Req → U → Option (ResultContextBundle O E Req)
  | Err result request, update =>
    some (match applyE result update with
      | .error e => Err e request
      | .ok v => Ok v request)
  | Ok _ _, _ => none

/-- `ResultContextBundle::update`: `process.exec_over(self.unwrap())`;
the `none` of `unwrap` (panic on an `Err` bundle) propagates. -/
def update (applyO : O → U → Except E O) (b : ResultContextBundle O E Req)
    (process : Process O U Req) : Option (ResultContextBundle O E Req) :=
  b.unwrap.map (fun c => process.exec_over applyO c)

/-- `ResultContextBundle::fix`: `unwrap_err`, run the fixer on the
unwrapped bundle, rebuild the `Err` bundle and `amend` it with the
produced update. `none` models the panic when called on an `Ok` bundle. -/
def fix (applyE : E → U → Except E O) (b : ResultContextBundle O E Req)
    (f : Process E U Req) : Option (ResultContextBundle O E Req) :=
  b.unwrap_err.bind (fun uw =>
    let update := f uw
    amend applyE (Err uw.result uw.request) update)

/-- `ResultContextBundle::continue_or_fix`: pass an `Ok` bundle through
unchanged, otherwise behave as `fix`. -/
def continue_or_fix (applyE : E → U → Except E O)
    (b : ResultContextBundle O E Req) (f : Process E U Req) :
    Option (ResultContextBundle O E Req) :=
  if b.is_err then b.fix applyE f else some b

/-- `ResultContextBundle::update_fixed`: `continue_or_fix(fix)` then
`update(process)`; a modelled panic in either stage propagates. -/
def update_fixed (applyO : O → U → Except E O) (applyE : E → U → Except E O)
    (b : ResultContextBundle O E Req) (process : Process O U Req)
    (f : Process E U Req) : Option (ResultContextBundle O E Req) :=
  (b.continue_or_fix applyE f).bind (fun b2 => b2.update applyO process)

/-- The request stored in either variant of a bundle. -/
def request_of : ResultContextBundle O E Req → Req
  | Ok _ request => request
  | Err _ request => request

end ResultContextBundle

/-- `RouteMatch` from src/route.rs. The spec places the regex engine
outside the core as an opaque `matches(pattern, text) -> bool` capability,
so `regex` is modelled as a match predicate on the path string; `handle`
is kept generic. -/
structure RouteMatch (H : Type) where
  regex : String → Bool
  handle : H

/-- `RouteMatchGroup` from src/route.rs: the ordered list of routes. -/
structure RouteMatchGroup (H : Type) where
  arr : List (RouteMatch H)

/-- The `for i in &self.arr` loop of `RouteMatchGroup::handle_for`:
return the handler of the first route whose predicate accepts the path,
`none` when the list is exhausted. -/
def handleForList {H : Type} (arr : List (RouteMatch H)) (path : String) :
    Option H :=
  match arr with
  | [] => none
  | i :: rest => if i.regex path then some i.handle else handleForList rest path

/-- `RouteMatchGroup::handle_for`, as a function of the string the loop
matches against (the value of `req.path()`). -/
def RouteMatchGroup.handle_for {H : Type} (g : RouteMatchGroup H)
    (path : String) : Option H :=
  handleForList g.arr path

/-- Whether `pat` begins `l`. -/
def listStartsWith : List Char → List Char → Bool
  | [], _ => true
  | _ :: _, [] => false
  | p :: ps, c :: cs => p == c && listStartsWith ps cs

/-- Whether `pat` occurs somewhere inside `l` (unanchored). -/
def listHasSub (l pat : List Char) : Bool :=
  match l with
  | [] => listStartsWith pat []
  | _ :: cs => listStartsWith pat l || listHasSub cs pat

/-- Unanchored substring occurrence on strings. -/
def strHasSub (s pat : String) : Bool :=
  listHasSub s.toList pat.toList

/-- The match predicate of the regex `/a.*` used in the spec's dispatch
example: unanchored, it accepts exactly the strings containing `/a`
(`.*` then matches any suffix). -/
def matchSlashAStar (s : String) : Bool :=
  strHasSub s "/a"

/-- The match predicate of the literal regex `/a/b` from the spec's
dispatch example: unanchored, it accepts the strings containing `/a/b`. -/
def matchSlashASlashB (s : String) : Bool :=
  strHasSub s "/a/b"

/-- The spec's dispatch example: patterns `/a.*` then `/a/b`, in that
order, with distinguishable handlers. -/
def exampleGroup : RouteMatchGroup Nat :=
  { arr := [ { regex := matchSlashAStar, handle := 1 },
             { regex := matchSlashASlashB, handle := 2 } ] }

/-! ### Interleaving model of the lazy parse

`UrlInfo::parse_if_needed` checks `is_lazy_parsed` and then calls
`lazy_parse`, which (for a nonempty URL) acquires `parse_mutex`, runs the
parse computation, and releases the lock on drop. For a nonempty URL each
caller therefore executes the instruction sequence
`check; acquire; parseBody; release`, with no second `check` after
`acquire`. The model below runs two such callers under an explicit
schedule; `parseCount` counts how many times the parse computation runs.
The parse body (all three `Cell` writes) is treated as one atomic step,
which only favours the code. -/

/-- One atomic step of a caller of `parse_if_needed` (nonempty URL). -/
inductive Instr where
  | check
  | acquire
  | parseBody
  | release
deriving DecidableEq, Repr

/-- The instruction sequence a caller of `parse_if_needed` executes for a
nonempty URL, read off src/proc.rs: the `is_lazy_parsed` test, then inside
`lazy_parse` the `parse_mutex.lock()`, the parse computation, and the lock
release at the end of scope. There is no re-check between `acquire` and
`parseBody`. -/
def threadProg : List Instr :=
  [.check, .acquire, .parseBody, .release]

/-- Shared state of the interleaving model: the `UrlInfo`, whether
`parse_mutex` is held, and how many times the parse computation ran. -/
structure LockState where
  url : UrlInfo
  lockHeld : Bool
  parseCount : Nat
deriving DecidableEq, Repr

/-- Effect of one instruction on the shared state: `none` when the caller
is blocked on the lock; otherwise the new state and whether the caller
returns early (`check` finding the URL already parsed). -/
def execInstr (st : LockState) : Instr → Option (LockState × Bool)
  | .check => some (st, st.url.is_lazy_parsed)
  | .acquire =>
    if st.lockHeld then none
    else some ({ st with lockHeld := true }, false)
  | .parseBody =>
    some ({ st with url := st.url.lazy_parse,
                    parseCount := st.parseCount + 1 }, false)
  | .release => some ({ st with lockHeld := false }, false)

/-- Two callers racing through `parse_if_needed`, each with its remaining
instructions. -/
structure TwoThreads where
  st : LockState
  t1 : List Instr
  t2 : List Instr
deriving DecidableEq, Repr

/-- Let the first caller take one step (no-op when finished or blocked). -/
def stepT1 (s : TwoThreads) : TwoThreads :=
  match s.t1 with
  | [] => s
  | i :: rest =>
    match execInstr s.st i with
    | none => s
    | some (st2, stop) => { s with st := st2, t1 := if stop then [] else rest }

/-- Let the second caller take one step (no-op when finished or blocked). -/
def stepT2 (s : TwoThreads) : TwoThreads :=
  match s.t2 with
  | [] => s
  | i :: rest =>
    match execInstr s.st i with
    | none => s
    | some (st2, stop) => { s with st := st2, t2 := if stop then [] else rest }

/-- Run a schedule: `true` steps the first caller, `false` the second. -/
def runSched (s : TwoThreads) : List Bool → TwoThreads
  | [] => s
  | tid :: sched => runSched (if tid then stepT1 s else stepT2 s) sched

/-- Both callers start with the full program on a fresh, unparsed URL. -/
def initialRace (url : String) : TwoThreads :=
  { st := { url := UrlInfo.fresh url, lockHeld := false, parseCount := 0 },
    t1 := threadProg, t2 := threadProg }

/-! ## Theorems for the claims -/

/-- C1: evaluating the lazy parser on the input `"/admin/new?q=something"`.
The segments are the `/`-split of the whole string with the leading empty
piece, and the single parameter is `{name: "q", value: "something"}`, as
the claim states; but `path()` yields `"new"` — the pre-`?` part of the
last `/`-segment only — and not `"/admin/new"`, contradicting both the
claim and the doc comment on the `path` field in src/proc.rs. -/
theorem c1_admin_new_eval :
    (RequestContext.mk (UrlInfo.fresh "/admin/new?q=something")).path = some "new" ∧
    (RequestContext.mk (UrlInfo.fresh "/admin/new?q=something")).path ≠ some "/admin/new" ∧
    (RequestContext.mk (UrlInfo.fresh "/admin/new?q=something")).parts
      = ["", "admin", "new?q=something"] ∧
    (RequestContext.mk (UrlInfo.fresh "/admin/new?q=something")).params
      = [{ name := some "q", value := some "something" }] :=
  ⟨by decide, by decide, by decide, by decide⟩

/-- C2: for the empty URL, `lazy_parse` is a no-op on the state, and
`parts()`/`params()` return empty values; but `path` stays `none`, so the
`unwrap` inside `RequestContext::path` panics (modelled by the `none`
result) instead of returning an empty value. -/
theorem c2_empty_url_eval :
    UrlInfo.lazy_parse (UrlInfo.fresh "") = UrlInfo.fresh "" ∧
    (RequestContext.mk (UrlInfo.fresh "")).parts = [] ∧
    (RequestContext.mk (UrlInfo.fresh "")).params = [] ∧
    (RequestContext.mk (UrlInfo.fresh "")).path = none :=
  ⟨by decide, by decide, by decide, by decide⟩

/-- C3: for the input `"/x?=value"` the single parameter has `name = none`
as the claim states, but its value is `some ""` — the `starts_with_eq`
branch of `lazy_parse` takes `split.next()`, which is the empty piece
before the leading `=` — and not `some "value"` as the claim and the
spec state. -/
theorem c3_eq_value_eval :
    (RequestContext.mk (UrlInfo.fresh "/x?=value")).params
      = [{ name := none, value := some "" }] ∧
    (RequestContext.mk (UrlInfo.fresh "/x?=value")).params
      ≠ [{ name := none, value := some "value" }] :=
  ⟨by decide, by decide⟩

/-- Splitting a list headed by a separator-free chunk: the chunk becomes
the first piece and the split continues after the separator. -/
theorem splitChar_sep_append (sep : Char) (a rest : List Char) (h : sep ∉ a) :
    splitChar sep (a ++ sep :: rest) = a :: splitChar sep rest := by
  induction a with
  | nil => simp [splitChar]
  | cons x xs ih =>
    rw [List.mem_cons, not_or] at h
    obtain ⟨h1, h2⟩ := h
    have hx : (x == sep) = false := by
      simp only [beq_eq_false_iff_ne, ne_eq]
      exact fun e => h1 e.symm
    rw [List.cons_append]
    simp only [splitChar, hx, Bool.false_eq_true, if_false]
    rw [ih h2]

/-- `parseParam` on an explicit character list, with the `let` bindings
unfolded (definitional). -/
theorem parseParam_mk (l : List Char) :
    parseParam (String.mk l) =
      (if l.head? == some '=' then
        { name := none, value := ((splitChar '=' l).map String.mk).head? }
      else
        { name := ((splitChar '=' l).map String.mk).head?,
          value := ((splitChar '=' l).map String.mk)[1]? } : Param) := rfl

/-- C4 counterexample: for the token `"a=b=c"` the parsed value is
`some "b"` — the second piece of an unlimited `=`-split — so the text
after the second `=` is silently dropped, contrary to the claim that the
value retains the entire remainder `"b=c"`. -/
theorem c4_multiple_eq_counterexample :
    (RequestContext.mk (UrlInfo.fresh "/x?a=b=c")).params
      = [{ name := some "a", value := some "b" }] ∧
    (RequestContext.mk (UrlInfo.fresh "/x?a=b=c")).params
      ≠ [{ name := some "a", value := some "b=c" }] :=
  ⟨by decide, by decide⟩

/-- C4 amended: for a query-parameter token of the shape `a=b=c…` whose
name part `a` is nonempty and `=`-free and whose part `b` between the
first and second `=` is `=`-free, the name is the part before the first
`=` and the value is only the part between the first and second `=`; the
text from the second `=` on is dropped (only the first two pieces of the
unlimited `=`-split are consulted). -/
theorem c4_first_two_pieces (a b c : List Char) (ha : a ≠ [])
    (hA : ('=' : Char) ∉ a) (hB : ('=' : Char) ∉ b) :
    parseParam (String.mk (a ++ '=' :: (b ++ '=' :: c))) =
      { name := some (String.mk a), value := some (String.mk b) } := by
  obtain ⟨x, xs, rfl⟩ : ∃ x xs, a = x :: xs := by
    cases a with
    | nil => exact absurd rfl ha
    | cons x xs => exact ⟨x, xs, rfl⟩
  rw [List.mem_cons, not_or] at hA
  obtain ⟨h1, h2⟩ := hA
  have hmem : ('=' : Char) ∉ (x :: xs) := by
    rw [List.mem_cons, not_or]; exact ⟨h1, h2⟩
  have hsplit : splitChar '=' (x :: (xs ++ '=' :: (b ++ '=' :: c)))
      = (x :: xs) :: b :: splitChar '=' c := by
    rw [← List.cons_append, splitChar_sep_append '=' (x :: xs) _ hmem,
      splitChar_sep_append '=' b c hB]
  have hc : ¬(((x :: (xs ++ '=' :: (b ++ '=' :: c))).head? == some ('=' : Char)) = true) := by
    simp only [List.head?_cons, beq_iff_eq, Option.some.injEq]
    exact fun e => h1 e.symm
  rw [parseParam_mk, List.cons_append, if_neg hc, hsplit]
  simp

/-- C4 witness: the amended statement applied at the concrete token
`"a=b=c"`. -/
theorem c4_first_two_pieces_witness :
    (['a'] : List Char) ≠ [] ∧ ('=' : Char) ∉ (['a'] : List Char) ∧
    ('=' : Char) ∉ (['b'] : List Char) ∧
    parseParam (String.mk (['a'] ++ '=' :: (['b'] ++ '=' :: ['c']))) =
      { name := some (String.mk ['a']), value := some (String.mk ['b']) } :=
  ⟨by decide, by decide, by decide,
    c4_first_two_pieces ['a'] ['b'] ['c'] (by decide) (by decide) (by decide)⟩

/-- C5: every wrong-variant operation — `amend` or `fix` on an `Ok`
bundle, `err` or `unwrap_err` on an `Ok` bundle, `unwrap` or `update` on
an `Err` bundle — yields the modelled panic (`none`), never a
wrong-variant value and never a silent no-op. -/
theorem c5_wrong_variant_panics (O E U Req : Type)
    (applyO : O → U → Except E O) (applyE : E → U → Except E O)
    (v : O) (e : E) (r : Req) (u : U)
    (p : Process O U Req) (f : Process E U Req) :
    ResultContextBundle.amend applyE
      (ResultContextBundle.Ok v r : ResultContextBundle O E Req) u = none ∧
    ResultContextBundle.fix applyE
      (ResultContextBundle.Ok v r : ResultContextBundle O E Req) f = none ∧
    ResultContextBundle.err
      (ResultContextBundle.Ok v r : ResultContextBundle O E Req) = none ∧
    ResultContextBundle.unwrap_err
      (ResultContextBundle.Ok v r : ResultContextBundle O E Req) = none ∧
    ResultContextBundle.unwrap
      (ResultContextBundle.Err e r : ResultContextBundle O E Req) = none ∧
    ResultContextBundle.update applyO
      (ResultContextBundle.Err e r : ResultContextBundle O E Req) p = none :=
  ⟨rfl, rfl, rfl, rfl, rfl, rfl⟩

/-- C6: on an `Err` bundle, `update_fixed(p, f)` is exactly
`continue_or_fix(f)` followed by `update(p)`, which in turn is exactly
`fix(f)` followed by `update(p)` — in all cases, whether the fixer
recovers the bundle or leaves it broken. -/
theorem c6_update_fixed_is_fix_then_update (O E U Req : Type)
    (applyO : O → U → Except E O) (applyE : E → U → Except E O)
    (e : E) (r : Req) (p : Process O U Req) (f : Process E U Req) :
    ResultContextBundle.update_fixed applyO applyE
        (ResultContextBundle.Err e r : ResultContextBundle O E Req) p f =
      (ResultContextBundle.continue_or_fix applyE
        (ResultContextBundle.Err e r : ResultContextBundle O E Req) f).bind
        (fun b2 => ResultContextBundle.update applyO b2 p) ∧
    ResultContextBundle.update_fixed applyO applyE
        (ResultContextBundle.Err e r : ResultContextBundle O E Req) p f =
      (ResultContextBundle.fix applyE
        (ResultContextBundle.Err e r : ResultContextBundle O E Req) f).bind
        (fun b2 => ResultContextBundle.update applyO b2 p) :=
  ⟨rfl, rfl⟩

/-- C7: `continue_or_fix` on an `Ok` bundle passes the bundle through
unchanged — same result value, same request — and the fixer is never
consulted (the outcome is independent of which fixer is supplied). -/
theorem c7_continue_or_fix_ok_identity (O E U Req : Type)
    (applyE : E → U → Except E O) (v : O) (r : Req)
    (f g : Process E U Req) :
    ResultContextBundle.continue_or_fix applyE
        (ResultContextBundle.Ok v r : ResultContextBundle O E Req) f =
      some (ResultContextBundle.Ok v r) ∧
    ResultContextBundle.continue_or_fix applyE
        (ResultContextBundle.Ok v r : ResultContextBundle O E Req) f =
      ResultContextBundle.continue_or_fix applyE
        (ResultContextBundle.Ok v r : ResultContextBundle O E Req) g :=
  ⟨rfl, rfl⟩

/-- C8: every pipeline transition carries the stored request through
unchanged: `update` on an `Ok` bundle, and `fix`/`amend` on an `Err`
bundle, all produce (when they do not hit the modelled wrong-variant
panic) a bundle with the same request — whichever variant `apply` lands
in, so in particular an `Err` outcome of a failed `apply` keeps the
request of the bundle before the update. -/
theorem c8_request_preserved (O E U Req : Type)
    (applyO : O → U → Except E O) (applyE : E → U → Except E O)
    (v : O) (e : E) (r : Req) (u : U)
    (p : Process O U Req) (f : Process E U Req) :
    (ResultContextBundle.update applyO
        (ResultContextBundle.Ok v r : ResultContextBundle O E Req) p).map
        ResultContextBundle.request_of = some r ∧
    (ResultContextBundle.fix applyE
        (ResultContextBundle.Err e r : ResultContextBundle O E Req) f).map
        ResultContextBundle.request_of = some r ∧
    (ResultContextBundle.amend applyE
        (ResultContextBundle.Err e r : ResultContextBundle O E Req) u).map
        ResultContextBundle.request_of = some r := by
  refine ⟨?_, ?_, ?_⟩
  · cases h : applyO v (p { result := v, request := r }) <;>
      simp [ResultContextBundle.update, ResultContextBundle.unwrap,
        Process.exec_over, h, ResultContextBundle.request_of]
  · cases h : applyE e (f { result := e, request := r }) <;>
      simp [ResultContextBundle.fix, ResultContextBundle.unwrap_err,
        ResultContextBundle.amend, h, ResultContextBundle.request_of]
  · cases h : applyE e u <;>
      simp [ResultContextBundle.amend, h, ResultContextBundle.request_of]

/-- The dispatch loop returns the handler of the first route whose
predicate accepts the path (`List.find?` order), `none` otherwise. -/
theorem handleForList_eq_find (H : Type) (arr : List (RouteMatch H)) (path : String) :
    handleForList arr path
      = (arr.find? (fun i => i.regex path)).map (fun i => i.handle) := by
  induction arr with
  | nil => rfl
  | cons i rest ih =>
    cases h : i.regex path <;>
      simp [handleForList, h, ih, List.find?_cons]

/-- C9: dispatch tries the ordered (pattern, handler) pairs in declared
order and returns the handler of the first pattern whose predicate
accepts the path, `none` when no pattern matches; in the spec's example,
both `/a.*` and `/a/b` accept the path `"/a/b"` and the first pattern's
handler is selected (first-match-wins, not most-specific-match), while a
path matching no pattern yields `none`. -/
theorem c9_first_match_wins :
    (∀ (H : Type) (g : RouteMatchGroup H) (path : String),
      g.handle_for path
        = (g.arr.find? (fun i => i.regex path)).map (fun i => i.handle)) ∧
    matchSlashAStar "/a/b" = true ∧
    matchSlashASlashB "/a/b" = true ∧
    exampleGroup.handle_for "/a/b" = some 1 ∧
    exampleGroup.handle_for "/z" = none :=
  ⟨fun H g path => handleForList_eq_find H g.arr path,
    by decide, by decide, by decide, by decide⟩

/-- C10 counterexample: with the instruction sequence actually executed
by `parse_if_needed`/`lazy_parse` — parsed-check, lock, parse, unlock,
with no re-check after taking the lock — there is a schedule of two
first-time callers on the unparsed URL `"/x?a=b"` in which both callers
pass the pre-lock check and the parse computation runs twice; a schedule
in which the second caller checks only after the first finished parses
once. -/
theorem c10_redone_work_schedule :
    (runSched (initialRace "/x?a=b")
      [true, false, true, true, true, false, false, false]).st.parseCount = 2 ∧
    (runSched (initialRace "/x?a=b")
      [true, true, true, true, false]).st.parseCount = 1 :=
  ⟨by decide, by decide⟩

/-- Re-running `lazy_parse` recomputes the same derived fields from the
unchanged original URL: `lazy_parse` is idempotent. -/
theorem lazy_parse_idem (u : UrlInfo) :
    u.lazy_parse.lazy_parse = u.lazy_parse := by
  by_cases h : u.original_url.isEmpty
  · simp [UrlInfo.lazy_parse, h]
  · simp [UrlInfo.lazy_parse, h]

/-- After `lazy_parse` of a nonempty URL, the parsed sentinel is set. -/
theorem lazy_parse_path_isSome (u : UrlInfo) (h : u.original_url.isEmpty = false) :
    u.lazy_parse.path.isSome = true := by
  simp [UrlInfo.lazy_parse, h]

/-- `parse_if_needed` is idempotent: a second invocation never changes
the state. -/
theorem parse_if_needed_idem (u : UrlInfo) :
    u.parse_if_needed.parse_if_needed = u.parse_if_needed := by
  simp only [UrlInfo.parse_if_needed, UrlInfo.is_lazy_parsed]
  by_cases hp : u.path.isSome
  · simp [hp]
  · simp only [hp, if_false, Bool.false_eq_true]
    by_cases he : u.original_url.isEmpty
    · have h0 : u.lazy_parse = u := by simp [UrlInfo.lazy_parse, he]
      simp [h0, hp]
    · have hs : u.lazy_parse.path.isSome = true :=
        lazy_parse_path_isSome u (by simp [he])
      simp [hs]

/-- C10 amended: the "already parsed?" check is evaluated only before
acquiring the parse lock (there is no second check after acquiring it),
so two concurrent first-time callers may both run the parse computation;
but because the parse is a deterministic function of the immutable
original URL, redoing it writes the identical values — in the racing
schedule both callers leave the state exactly as a single parse does —
and invoking the parse trigger twice yields identical derived values to
invoking it once (`parse_if_needed` and `lazy_parse` are idempotent). -/
theorem c10_parse_idempotent (u : UrlInfo) :
    u.parse_if_needed.parse_if_needed = u.parse_if_needed ∧
    u.lazy_parse.lazy_parse = u.lazy_parse ∧
    (runSched (initialRace "/x?a=b")
        [true, false, true, true, true, false, false, false]).st.url
      = (UrlInfo.fresh "/x?a=b").lazy_parse :=
  ⟨parse_if_needed_idem u, lazy_parse_idem u, by decide⟩

end Haruhi
